import Mathlib

/-!
Shallow embedding of the conversation-history core of the Chrry-Server
repository.

The embedding covers:
* `managers/conversation_manager.py` — the `ConversationManager` class:
  `create_conversation`, `add_message`, `get_context_for_ai`,
  `get_conversation_context`, `get_tactical_content`,
  `update_after_compression`.  The on-disk state (the metadata file
  `data.json` plus the per-conversation files `tactical.json`,
  `archive.json`, `raw_context.json`) is modelled as a `Store` value that
  every operation threads explicitly.
* `managers/compress_manager.py` — `CompressManager.compress` together
  with its helper checks.  The single external call it makes
  (`ai_manager.call_ai`, the Completion Relay) is modelled by a
  `RelayOutcome` oracle parameter: `RelayOutcome.error` stands for a falsy
  return value, a network failure, or any exception raised inside the
  body (note that in this source tree `AIConfigManager` defines no
  `call_ai` method at all, so the call raises `AttributeError`, which the
  surrounding `except Exception` absorbs — exactly the `error` outcome);
  `RelayOutcome.reply r` stands for a truthy provider-response dictionary.
* `utils/ai_response_util.py` — `extract_openai_response` and the
  provider dispatcher `extract_ai_response`.

Timestamps (`int(time.time())`) are passed in as explicit `now : Nat`
arguments.  JSON dictionaries with a fixed shape are modelled as
structures whose `Option` fields stand for possibly-missing keys.
File-system I/O errors (which the Python code surfaces as a failed
operation) are outside the model, matching the claims' "absent storage
I/O errors" reading.
-/

namespace Chrry

/-- An OpenAI-style tool-call `function` object (`{"name", "arguments"}`),
as stored inside `tool_calls` entries and inspected by
`CompressManager.compress` (compress_manager.py line 137). -/
structure ToolFunction where
  name : String
  arguments : String
  deriving DecidableEq

/-- An OpenAI-style tool call `{"id", "type", "function": {...}}`. -/
structure ToolCall where
  id : String
  type : String
  function : ToolFunction
  deriving DecidableEq

/-- The `message` object of an OpenAI chat-completion choice.  `content`
is `none` when the key is missing or JSON `null` (the Python code reads it
with `message.get("content", "") or ""`); `tool_calls` is `none` when the
key is missing. -/
structure OAIMessage where
  content : Option String := none
  tool_calls : Option (List ToolCall) := none
  deriving DecidableEq

/-- One element of the `choices` array of an OpenAI-style response. -/
structure OAIChoice where
  message : Option OAIMessage := none
  finish_reason : Option String := none
  deriving DecidableEq

/-- The `usage` object of an OpenAI-style response; `total_tokens` is
read with `usage.get("total_tokens", 0)`. -/
structure Usage where
  total_tokens : Option Nat := none
  deriving DecidableEq

/-- An OpenAI-style provider response, as consumed by
`extract_openai_response` (ai_response_util.py lines 6-70).  A missing
`choices` key and an empty `choices` array are treated identically by the
code, so both are modelled by `choices = []`. -/
structure AIResponse where
  choices : List OAIChoice := []
  usage : Option Usage := none
  deriving DecidableEq

/-- The dictionary produced by the extraction helpers of
`ai_response_util.py`.  Each `Option` field models the presence of the
corresponding key, so the all-`none` record is the Python empty dict
`{}` that `extract_ai_response` returns for unsupported providers. -/
structure Extracted where
  message : Option String := none
  tools : Option (List ToolCall) := none
  reason : Option String := none
  tokens : Option Nat := none
  deriving DecidableEq

/-- The Python empty dict `{}`: the value `extract_ai_response` returns
when the provider is not in its supported tuple. -/
def Extracted.empty : Extracted := {}

/-- `extract_openai_response` (ai_response_util.py lines 6-70): builds the
`{"message", "tools", "reason", "tokens"}` record from an OpenAI-style
response, with the defaults `""`, `[]`, `"unknown"`, `0` when the
response carries no choices. -/
def extract_openai_response (ai_response : AIResponse) : Extracted :=
  match ai_response.choices with
  | [] =>
    { message := some "", tools := some [], reason := some "unknown", tokens := some 0 }
  | choice :: _ =>
    let message := choice.message.getD {}
    let contentV : String := message.content.getD ""
    let toolsV : List ToolCall :=
      match message.tool_calls with
      | some tc => if tc.isEmpty then [] else tc
      | none => []
    let reasonV : String := choice.finish_reason.getD "unknown"
    let tokensV : Nat :=
      match ai_response.usage with
      | some u => u.total_tokens.getD 0
      | none => 0
    { message := some contentV, tools := some toolsV,
      reason := some reasonV, tokens := some tokensV }

/-- `extract_ai_response` (ai_response_util.py lines 168-173): dispatches
on the provider identifier; any provider outside the tuple
`("openai", "deepseek", "ollama", "siliconflow")` yields the empty dict. -/
def extract_ai_response (ai_response : AIResponse) (provider : String) : Extracted :=
  if provider = "openai" ∨ provider = "deepseek" ∨ provider = "ollama" ∨
      provider = "siliconflow" then
    extract_openai_response ai_response
  else
    Extracted.empty

/-- A chat message as built by `ConversationManager.add_message`
(conversation_manager.py lines 124-137): role, content, timestamp, plus
the optional `tool_calls`, `finish_reason` and `usage` keys. -/
structure Message where
  role : String
  content : String
  timestamp : Nat
  tool_calls : Option (List ToolCall) := none
  finish_reason : Option String := none
  usage : Option Nat := none
  deriving DecidableEq

/-- A compaction summary record, as appended to `archive.json` by
`update_after_compression` (conversation_manager.py lines 357-362). -/
structure Summary where
  type : String
  content : String
  original_count : Nat
  timestamp : Nat
  deriving DecidableEq

/-- One element of a tier file.  `tactical.json` and `raw_context.json`
hold chat messages; `archive.json` holds summary records.  All three are
plain JSON arrays, so a common sum type models their elements. -/
inductive Entry where
  | msg (m : Message)
  | summary (s : Summary)
  deriving DecidableEq

/-- The per-conversation metadata record created by `create_conversation`
(conversation_manager.py lines 75-85).  `interval` is the compaction
countdown; it is modelled as `Int` because the claims constrain its sign. -/
structure Meta where
  name : String
  prompt : String
  ai : String
  interval : Int
  device : String
  created : Nat
  updated : Nat
  message_count : Nat
  last_compress_attempt : Nat
  deriving DecidableEq

/-- The three tier files of one conversation directory. -/
structure ConvData where
  tactical : List Entry
  archive : List Entry
  raw_context : List Entry
  deriving DecidableEq

/-- The whole persistent state of `ConversationManager`: the metadata
mapping (`data.json` / `self.conversations`) and the per-conversation
directories.  Both mappings are association lists with Python-dict
update semantics. -/
structure Store where
  conversations : List (String × Meta)
  dirs : List (String × ConvData)
  deriving DecidableEq

/-- An AI-provider configuration record as stored by `AIConfigManager`.
Only the `provider` field influences the control flow embedded here
(`compress` reads it with `ai_config.get("provider", "openai")`; other
keys such as `model` or `api_key` only affect the outgoing payload,
which the relay oracle absorbs). -/
structure AIConfig where
  provider : String
  deriving DecidableEq

/-- Outcome of the Completion Relay call `ai_manager.call_ai(...)` made
by `CompressManager.compress` (compress_manager.py line 125).  `error`
covers a falsy return value, a timeout/network failure, and any exception
raised while preparing or performing the call (in this source tree the
call always raises `AttributeError` because `AIConfigManager` has no
`call_ai`; the `except Exception` handler turns that into a `False`
result, i.e. this outcome).  `reply r` is a truthy response dictionary. -/
inductive RelayOutcome where
  | error
  | reply (resp : AIResponse)

/-- Lookup in an association list with Python-dict semantics (first
occurrence of the key wins). -/
def lookupKey {α : Type} (k : String) : List (String × α) → Option α
  | [] => none
  | (k₂, v) :: rest => if k₂ = k then some v else lookupKey k rest

/-- Python dict assignment `d[k] = v`: replaces the binding in place if
the key exists, otherwise appends it. -/
def setKey {α : Type} (k : String) (v : α) : List (String × α) → List (String × α)
  | [] => [(k, v)]
  | (k₂, v₂) :: rest => if k₂ = k then (k, v) :: rest else (k₂, v₂) :: setKey k v rest

/-- In-place update of the value bound to `k`, if any (models mutating
the dict entry `d[k]` field by field). -/
def updateKey {α : Type} (k : String) (f : α → α) : List (String × α) → List (String × α)
  | [] => []
  | (k₂, v₂) :: rest => if k₂ = k then (k₂, f v₂) :: rest else (k₂, v₂) :: updateKey k f rest

/-- Python list slice `xs[-k:]`.  For `k = 0` Python yields the whole
list (`xs[-0:] = xs[0:]`); for `k > 0` it yields the last `k` elements
(all of them when `k ≥ len(xs)`). -/
def sliceLast {α : Type} (k : Nat) (xs : List α) : List α :=
  if k = 0 then xs else xs.drop (xs.length - k)

/-- Python list slice `xs[:-k]`.  For `k = 0` Python yields `[]`; for
`k > 0` it yields everything but the last `k` elements. -/
def sliceDropLast {α : Type} (k : Nat) (xs : List α) : List α :=
  if k = 0 then [] else xs.take (xs.length - k)

/-- Python `str.strip()`: removes whitespace from both ends.  Implemented
structurally over the character list (rather than through `String.trim`,
which is defined by well-founded recursion over byte positions) so that
concrete executions reduce inside the kernel. -/
def pyStrip (s : String) : String :=
  ⟨(((s.data.dropWhile Char.isWhitespace).reverse).dropWhile
      Char.isWhitespace).reverse⟩

/-- `ConversationManager.create_conversation` (conversation_manager.py
lines 44-90).  The fresh uuid is passed in as `conversation_id`; the
three tier files are initialised empty and the metadata record is stored
with `interval = 10`, `message_count = 0`, `last_compress_attempt = 0`. -/
def create_conversation (s : Store) (now : Nat)
    (conversation_id name prompt_type ai_uuid device_id : String) : Store :=
  { conversations :=
      setKey conversation_id
        { name := name, prompt := prompt_type, ai := ai_uuid, interval := 10,
          device := device_id, created := now, updated := now,
          message_count := 0, last_compress_attempt := 0 } s.conversations,
    dirs := setKey conversation_id ⟨[], [], []⟩ s.dirs }

/-- `ConversationManager.get_conversation_context` (conversation_manager.py
lines 260-289).  The Python code returns the empty dict `{}` when the
conversation id is unknown or its directory is missing (modelled as
`none`), and otherwise a dict holding the metadata and the three tier
files (modelled as `some`; missing tier files cannot arise in the model
because `create_conversation` writes all three). -/
def get_conversation_context (s : Store) (conversation_id : String) :
    Option (Meta × ConvData) :=
  match lookupKey conversation_id s.conversations with
  | none => none
  | some m =>
    match lookupKey conversation_id s.dirs with
    | none => none
    | some d => some (m, d)

/-- `ConversationManager.get_context_for_ai` (conversation_manager.py
lines 215-258): the last 8 archive records (`archive[-8:] if
len(archive) >= 8 else archive`) followed by the whole tactical tier;
`[]` when the conversation or its directory does not exist. -/
def get_context_for_ai (s : Store) (conversation_id : String) : List Entry :=
  match lookupKey conversation_id s.conversations with
  | none => []
  | some _ =>
    match lookupKey conversation_id s.dirs with
    | none => []
    | some d =>
      let memory := if d.archive.length ≥ 8 then d.archive.drop (d.archive.length - 8)
                    else d.archive
      memory ++ d.tactical

/-- `ConversationManager.get_tactical_content` (conversation_manager.py
lines 291-307): the tactical tier, or `[]` when the conversation (or the
tactical file) does not exist. -/
def get_tactical_content (s : Store) (conversation_id : String) : List Entry :=
  match lookupKey conversation_id s.conversations with
  | none => []
  | some _ =>
    match lookupKey conversation_id s.dirs with
    | none => []
    | some d => d.tactical

/-- `ConversationManager.update_after_compression` (conversation_manager.py
lines 309-380).  Returns `False` for an unknown conversation; succeeds
without mutating anything when the tactical tier has at most
`keep_recent_messages` entries; otherwise keeps `tactical[-keep:]`,
appends a `{"type": "compressed", ...}` record to the archive, and
returns `True`.  The raw tier and the metadata mapping are never
touched. -/
def update_after_compression (s : Store) (now : Nat) (conversation_id : String)
    (compressed_summary : String) (keep_recent_messages : Nat) : Bool × Store :=
  match lookupKey conversation_id s.conversations with
  | none => (false, s)
  | some _ =>
    match lookupKey conversation_id s.dirs with
    | none => (false, s)
    | some d =>
      if d.tactical.length ≤ keep_recent_messages then
        (true, s)
      else
        let to_keep := sliceLast keep_recent_messages d.tactical
        let to_compress := sliceDropLast keep_recent_messages d.tactical
        let entry : Entry := Entry.summary
          { type := "compressed", content := compressed_summary,
            original_count := to_compress.length, timestamp := now }
        let d2 : ConvData :=
          { d with archive := d.archive ++ [entry], tactical := to_keep }
        (true, { s with dirs := setKey conversation_id d2 s.dirs })

/-- `CompressManager.compress` (compress_manager.py lines 21-166).  The
oracle `relay` stands for the `ai_manager.call_ai` call; every early
check mirrors the source in order: the `len ≤ 10` gate, the
`get_conversation_context` emptiness check, the falsy-`ai` check, the
AI-config lookup, the `len ≤ 5` gate, the empty-`messages_to_compress`
gate, the falsy-response check (inside `RelayOutcome.error`), the
`no_compress` tool-call check, and the empty-summary check.  The payload
construction (`generate_payload`, `_format_messages_for_compression`)
only shapes the outgoing request consumed by the relay oracle and is not
modelled; an exception it might raise is part of `RelayOutcome.error`. -/
def compress (s : Store) (cfgs : List (String × AIConfig)) (relay : RelayOutcome)
    (now : Nat) (conversation_id : String) (tactical_content : List Entry) :
    Bool × Store :=
  if tactical_content.length ≤ 10 then
    (false, s)
  else
    match get_conversation_context s conversation_id with
    | none => (false, s)
    | some (metadata, _) =>
      if metadata.ai = "" then (false, s)
      else
        match lookupKey metadata.ai cfgs with
        | none => (false, s)
        | some ai_config =>
          if tactical_content.length ≤ 5 then (false, s)
          else
            let messages_to_compress := sliceDropLast 5 tactical_content
            if messages_to_compress.length = 0 then (false, s)
            else
              match relay with
              | RelayOutcome.error => (false, s)
              | RelayOutcome.reply resp =>
                let extracted := extract_ai_response resp ai_config.provider
                let declined : Bool :=
                  match extracted.tools.getD [] with
                  | tool_call :: _ => tool_call.function.name = "no_compress"
                  | [] => false
                if declined then (false, s)
                else
                  let compressed_summary := pyStrip (extracted.message.getD "")
                  if compressed_summary = "" then (false, s)
                  else update_after_compression s now conversation_id
                    compressed_summary 5

/-- `ConversationManager.add_message` (conversation_manager.py lines
92-197).  Fails (returns `False`, no mutation) for an unknown
conversation or missing directory; otherwise appends the message to the
raw and tactical files, bumps `message_count` and `updated`, and then
either decrements a positive countdown or — when the countdown is not
positive — invokes `CompressManager.compress` with the freshly-read
tactical content and resets `interval` to `10` and
`last_compress_attempt` to `now` regardless of the compression outcome
(lines 168-180 set the same two fields in both the success and the
failure branch; the `except ImportError` arm at lines 182-186 is dead
code because `compress` catches every exception itself). -/
def add_message (s : Store) (cfgs : List (String × AIConfig)) (relay : RelayOutcome)
    (now : Nat) (conversation_id role content : String)
    (tool_calls : Option (List ToolCall)) (finish_reason : Option String)
    (total_tokens : Nat) : Bool × Store :=
  match lookupKey conversation_id s.conversations with
  | none => (false, s)
  | some meta =>
    match lookupKey conversation_id s.dirs with
    | none => (false, s)
    | some d =>
      let message : Message :=
        { role := role, content := content, timestamp := now,
          tool_calls := tool_calls, finish_reason := finish_reason,
          usage := if 0 < total_tokens then some total_tokens else none }
      let d1 : ConvData :=
        { d with raw_context := d.raw_context ++ [Entry.msg message],
                 tactical := d.tactical ++ [Entry.msg message] }
      let meta1 : Meta :=
        { meta with message_count := meta.message_count + 1, updated := now }
      let s1 : Store :=
        ⟨setKey conversation_id meta1 s.conversations,
         setKey conversation_id d1 s.dirs⟩
      if 0 < meta1.interval then
        (true,
          ⟨setKey conversation_id { meta1 with interval := meta1.interval - 1 }
              s1.conversations,
           s1.dirs⟩)
      else
        let s2 := (compress s1 cfgs relay now conversation_id d1.tactical).2
        (true,
          ⟨updateKey conversation_id
              (fun m => { m with interval := 10, last_compress_attempt := now })
              s2.conversations,
           s2.dirs⟩)

/-- The guard under which `add_message` reaches the
`compress_manager.compress` call (conversation_manager.py lines 150-169):
the conversation and its directory exist and the stored countdown is not
positive.  Used to count Compactor invocations across a run of appends. -/
def invokesCompactor (s : Store) (conversation_id : String) : Bool :=
  match lookupKey conversation_id s.conversations,
        lookupKey conversation_id s.dirs with
  | some m, some _ => decide (m.interval ≤ 0)
  | _, _ => false

/-- The per-append inputs of one `add_message` call (the timestamp models
the `int(time.time())` reads during that call). -/
structure AppendInput where
  now : Nat
  role : String
  content : String
  tool_calls : Option (List ToolCall) := none
  finish_reason : Option String := none
  total_tokens : Nat := 0

/-- The message entry that `add_message` builds from its arguments
(conversation_manager.py lines 124-137). -/
def mkMessage (now : Nat) (role content : String)
    (tool_calls : Option (List ToolCall)) (finish_reason : Option String)
    (total_tokens : Nat) : Entry :=
  Entry.msg
    { role := role, content := content, timestamp := now,
      tool_calls := tool_calls, finish_reason := finish_reason,
      usage := if 0 < total_tokens then some total_tokens else none }

/-- The message entry built from one `AppendInput`. -/
def msgEntry (a : AppendInput) : Entry :=
  mkMessage a.now a.role a.content a.tool_calls a.finish_reason a.total_tokens

/-- The intermediate store after steps 1-3 of `add_message` (message
appended to the raw and tactical files, `message_count` and `updated`
refreshed): the state `CompressManager.compress` observes when the
countdown has expired. -/
def postAppendStore (s : Store) (conversation_id : String) (now : Nat)
    (role content : String) (tool_calls : Option (List ToolCall))
    (finish_reason : Option String) (total_tokens : Nat)
    (m : Meta) (d : ConvData) : Store :=
  ⟨setKey conversation_id
      { m with message_count := m.message_count + 1, updated := now }
      s.conversations,
   setKey conversation_id
      { d with
        raw_context := d.raw_context ++
          [mkMessage now role content tool_calls finish_reason total_tokens]
        tactical := d.tactical ++
          [mkMessage now role content tool_calls finish_reason total_tokens] }
      s.dirs⟩

/-- A run of consecutive `add_message` calls against one conversation,
also counting how many of them invoke the Compactor. -/
def appendRun (cfgs : List (String × AIConfig)) (relay : RelayOutcome)
    (conversation_id : String) : List AppendInput → Store → Store × Nat
  | [], s => (s, 0)
  | a :: rest, s =>
    let fires : Nat := if invokesCompactor s conversation_id then 1 else 0
    let s1 := (add_message s cfgs relay a.now conversation_id a.role a.content
      a.tool_calls a.finish_reason a.total_tokens).2
    let r := appendRun cfgs relay conversation_id rest s1
    (r.1, fires + r.2)

/-- One state transition of the store: a conversation creation (with a
fresh uuid, as `uuid4` guarantees), one `add_message` call, or one direct
`update_after_compression` call. -/
inductive Step : Store → Store → Prop
  | create (s : Store) (now : Nat) (cid name prompt_type ai_uuid device_id : String)
      (h : lookupKey cid s.conversations = none) :
      Step s (create_conversation s now cid name prompt_type ai_uuid device_id)
  | add (s : Store) (cfgs : List (String × AIConfig)) (relay : RelayOutcome)
      (now : Nat) (cid role content : String) (tool_calls : Option (List ToolCall))
      (finish_reason : Option String) (total_tokens : Nat) :
      Step s (add_message s cfgs relay now cid role content tool_calls
        finish_reason total_tokens).2
  | compact (s : Store) (now : Nat) (cid summary : String) (keep : Nat) :
      Step s (update_after_compression s now cid summary keep).2

/-- Stores reachable from the empty state (no metadata file, no
conversation directories) by the embedded operations. -/
inductive Reachable : Store → Prop
  | init : Reachable ⟨[], []⟩
  | step {s s' : Store} : Reachable s → Step s s' → Reachable s'

/-- The raw tier of a conversation (empty when the directory is missing). -/
def rawOf (s : Store) (conversation_id : String) : List Entry :=
  ((lookupKey conversation_id s.dirs).map ConvData.raw_context).getD []

/-- The tactical (active) tier of a conversation. -/
def tacticalOf (s : Store) (conversation_id : String) : List Entry :=
  ((lookupKey conversation_id s.dirs).map ConvData.tactical).getD []

/-- The archive (memory) tier of a conversation. -/
def archiveOf (s : Store) (conversation_id : String) : List Entry :=
  ((lookupKey conversation_id s.dirs).map ConvData.archive).getD []

/-! Concrete scenario data used to exercise the theorems below. -/

/-- A freshly created conversation `"c"` on an empty store. -/
def freshStore : Store := create_conversation ⟨[], []⟩ 0 "c" "chat" "common" "a1" "dev"

/-- The metadata record `create_conversation` writes for `freshStore`. -/
def freshMeta : Meta :=
  { name := "chat", prompt := "common", ai := "a1", interval := 10,
    device := "dev", created := 0, updated := 0, message_count := 0,
    last_compress_attempt := 0 }

/-- Ten user messages with timestamps 1..10. -/
def tenInputs : List AppendInput :=
  (List.range 10).map fun i => { now := i + 1, role := "user", content := "hi" }

/-- An eleventh appended message. -/
def eleventhInput : AppendInput := { now := 99, role := "user", content := "again" }

/-- A plain user message entry. -/
def wMsg (i : Nat) : Entry :=
  Entry.msg { role := "user", content := "m", timestamp := i }

/-- A stored summary entry. -/
def wSum (i : Nat) : Entry :=
  Entry.summary { type := "compressed", content := "s", original_count := 1, timestamp := i }

/-- Metadata of a conversation used in concrete scenarios. -/
def wMeta : Meta :=
  { name := "w", prompt := "common", ai := "a1", interval := 7, device := "dev",
    created := 0, updated := 0, message_count := 8, last_compress_attempt := 0 }

/-- A directory with eight tactical messages and an empty archive. -/
def wDir : ConvData :=
  { tactical := (List.range 8).map wMsg, archive := [],
    raw_context := (List.range 8).map wMsg }

/-- A store holding the single conversation `"c"` with eight active messages. -/
def wStore : Store := ⟨[("c", wMeta)], [("c", wDir)]⟩

/-- A directory with one tactical message and nine archive summaries. -/
def wDirA : ConvData :=
  { tactical := [wMsg 0], archive := (List.range 9).map wSum,
    raw_context := [wMsg 0] }

/-- A store whose conversation `"c"` carries nine memory summaries. -/
def wStoreA : Store := ⟨[("c", wMeta)], [("c", wDirA)]⟩

/-- A store whose conversation `"c"` references a `"gemini"` provider config. -/
def wMetaG : Meta := { wMeta with ai := "g1" }

/-- The store for the gemini scenario. -/
def wStoreG : Store := ⟨[("c", wMetaG)], [("c", wDir)]⟩

/-- The AI-config table for the gemini scenario. -/
def wCfgG : List (String × AIConfig) := [("g1", { provider := "gemini" })]

/-- A well-formed OpenAI-style reply carrying the summary text `"sum"`. -/
def wReply : AIResponse :=
  { choices :=
      [{ message := some { content := some "sum", tool_calls := none },
         finish_reason := some "stop" }],
    usage := none }

/-! Association-list lemmas (Python-dict semantics). -/

theorem lookup_setKey_self {α : Type} (k : String) (v : α) (l : List (String × α)) :
    lookupKey k (setKey k v l) = some v := by
  induction l with
  | nil => simp [setKey, lookupKey]
  | cons hd tl ih =>
    obtain ⟨k₂, v₂⟩ := hd
    by_cases h : k₂ = k
    · simp [setKey, h, lookupKey]
    · simp [setKey, h, lookupKey, ih]

theorem lookup_setKey_ne {α : Type} {k k' : String} (v : α) (l : List (String × α))
    (h : k' ≠ k) : lookupKey k' (setKey k v l) = lookupKey k' l := by
  induction l with
  | nil => simp [setKey, lookupKey, Ne.symm h]
  | cons hd tl ih =>
    obtain ⟨k₂, v₂⟩ := hd
    by_cases hk : k₂ = k
    · subst hk
      simp [setKey, lookupKey, Ne.symm h]
    · simp [setKey, hk, lookupKey, ih]

theorem lookup_updateKey_self {α : Type} (k : String) (f : α → α)
    (l : List (String × α)) :
    lookupKey k (updateKey k f l) = (lookupKey k l).map f := by
  induction l with
  | nil => simp [updateKey, lookupKey]
  | cons hd tl ih =>
    obtain ⟨k₂, v₂⟩ := hd
    by_cases h : k₂ = k
    · simp [updateKey, h, lookupKey]
    · simp [updateKey, h, lookupKey, ih]

theorem lookup_updateKey_ne {α : Type} {k k' : String} (f : α → α)
    (l : List (String × α)) (h : k' ≠ k) :
    lookupKey k' (updateKey k f l) = lookupKey k' l := by
  induction l with
  | nil => simp [updateKey]
  | cons hd tl ih =>
    obtain ⟨k₂, v₂⟩ := hd
    by_cases hk : k₂ = k
    · subst hk
      simp [updateKey, lookupKey, Ne.symm h]
    · simp [updateKey, hk, lookupKey, ih]

theorem setKey_setKey {α : Type} (k : String) (v₁ v₂ : α) (l : List (String × α)) :
    setKey k v₂ (setKey k v₁ l) = setKey k v₂ l := by
  induction l with
  | nil => simp [setKey]
  | cons hd tl ih =>
    obtain ⟨k₂, v₃⟩ := hd
    by_cases h : k₂ = k
    · simp [setKey, h]
    · simp [setKey, h, ih]

/-! Frame lemmas for `update_after_compression`. -/

theorem uac_conversations (s : Store) (now : Nat) (cid summ : String) (keep : Nat) :
    ((update_after_compression s now cid summ keep).2).conversations = s.conversations := by
  unfold update_after_compression
  cases h1 : lookupKey cid s.conversations with
  | none => rfl
  | some m =>
    cases h2 : lookupKey cid s.dirs with
    | none => rfl
    | some d =>
      by_cases h3 : d.tactical.length ≤ keep
      · simp [h3]
      · simp [h3]

theorem uac_dirs_ne (s : Store) (now : Nat) (cid summ : String) (keep : Nat)
    {cid' : String} (hc : cid' ≠ cid) :
    lookupKey cid' ((update_after_compression s now cid summ keep).2).dirs
      = lookupKey cid' s.dirs := by
  unfold update_after_compression
  cases h1 : lookupKey cid s.conversations with
  | none => rfl
  | some m =>
    cases h2 : lookupKey cid s.dirs with
    | none => rfl
    | some d =>
      by_cases h3 : d.tactical.length ≤ keep
      · simp [h3]
      · simp [h3, lookup_setKey_ne _ _ hc]

theorem uac_raw (s : Store) (now : Nat) (cid summ : String) (keep : Nat)
    (cid' : String) :
    (lookupKey cid' ((update_after_compression s now cid summ keep).2).dirs).map
        ConvData.raw_context
      = (lookupKey cid' s.dirs).map ConvData.raw_context := by
  by_cases hc : cid' = cid
  · subst hc
    unfold update_after_compression
    cases h1 : lookupKey cid' s.conversations with
    | none => rfl
    | some m =>
      cases h2 : lookupKey cid' s.dirs with
      | none => simp [h2]
      | some d =>
        by_cases h3 : d.tactical.length ≤ keep
        · simp [h3, h2]
        · simp [h3, lookup_setKey_self, h2]
  · rw [uac_dirs_ne s now cid summ keep hc]

theorem uac_dirs_isSome (s : Store) (now : Nat) (cid summ : String) (keep : Nat)
    (cid' : String) :
    (lookupKey cid' ((update_after_compression s now cid summ keep).2).dirs).isSome
      = (lookupKey cid' s.dirs).isSome := by
  have h := congrArg Option.isSome (uac_raw s now cid summ keep cid')
  simpa using h

theorem uac_tactical_cases (s : Store) (now : Nat) (cid summ : String) (keep : Nat) :
    tacticalOf ((update_after_compression s now cid summ keep).2) cid
        = tacticalOf s cid
    ∨ (keep < (tacticalOf s cid).length ∧
        tacticalOf ((update_after_compression s now cid summ keep).2) cid
          = sliceLast keep (tacticalOf s cid)) := by
  unfold update_after_compression
  cases h1 : lookupKey cid s.conversations with
  | none => exact Or.inl rfl
  | some m =>
    cases h2 : lookupKey cid s.dirs with
    | none => exact Or.inl rfl
    | some d =>
      by_cases h3 : d.tactical.length ≤ keep
      · simp only [h3, if_true]
        exact Or.inl trivial
      · refine Or.inr ⟨?_, ?_⟩
        · simp [tacticalOf, h2]
          omega
        · simp [h3, tacticalOf, lookup_setKey_self, h2]

/-! Frame lemmas for `compress`. -/

theorem compress_cases (s : Store) (cfgs : List (String × AIConfig))
    (relay : RelayOutcome) (now : Nat) (cid : String) (tc : List Entry) :
    compress s cfgs relay now cid tc = (false, s)
    ∨ ∃ summ, compress s cfgs relay now cid tc
        = update_after_compression s now cid summ 5 := by
  unfold compress
  by_cases h1 : tc.length ≤ 10
  · simp [h1]
  · simp only [h1, if_false]
    cases h2 : get_conversation_context s cid with
    | none => exact Or.inl rfl
    | some p =>
      obtain ⟨metadata, dd⟩ := p
      by_cases h3 : metadata.ai = ""
      · simp [h3]
      · simp only [h3, if_false]
        cases h4 : lookupKey metadata.ai cfgs with
        | none => exact Or.inl rfl
        | some ai_config =>
          by_cases h5 : tc.length ≤ 5
          · simp [h5]
          · simp only [h5, if_false]
            by_cases h6 : (sliceDropLast 5 tc).length = 0
            · simp [h6]
            · simp only [h6, if_false]
              cases relay with
              | error => exact Or.inl rfl
              | reply resp =>
                by_cases h7 : (match (extract_ai_response resp
                    ai_config.provider).tools.getD [] with
                  | tool_call :: _ =>
                    (tool_call.function.name = "no_compress" : Bool)
                  | [] => false) = true
                · simp only [h7, if_true]
                  exact Or.inl trivial
                · simp only [h7, if_false]
                  by_cases h8 : pyStrip ((extract_ai_response resp
                      ai_config.provider).message.getD "") = ""
                  · simp [h8]
                  · simp only [h8, if_false]
                    exact Or.inr ⟨_, rfl⟩

theorem compress_error_result (s : Store) (cfgs : List (String × AIConfig))
    (now : Nat) (cid : String) (tc : List Entry) :
    compress s cfgs RelayOutcome.error now cid tc = (false, s) := by
  unfold compress
  by_cases h1 : tc.length ≤ 10
  · simp [h1]
  · simp only [h1, if_false]
    cases h2 : get_conversation_context s cid with
    | none => rfl
    | some p =>
      obtain ⟨metadata, dd⟩ := p
      by_cases h3 : metadata.ai = ""
      · simp [h3]
      · simp only [h3, if_false]
        cases h4 : lookupKey metadata.ai cfgs with
        | none => rfl
        | some ai_config =>
          by_cases h5 : tc.length ≤ 5
          · simp [h5]
          · simp only [h5, if_false]
            by_cases h6 : (sliceDropLast 5 tc).length = 0
            · simp [h6]
            · simp [h6]

theorem compress_conversations (s : Store) (cfgs : List (String × AIConfig))
    (relay : RelayOutcome) (now : Nat) (cid : String) (tc : List Entry) :
    ((compress s cfgs relay now cid tc).2).conversations = s.conversations := by
  rcases compress_cases s cfgs relay now cid tc with h | ⟨summ, h⟩
  · rw [h]
  · rw [h, uac_conversations]

theorem compress_raw (s : Store) (cfgs : List (String × AIConfig))
    (relay : RelayOutcome) (now : Nat) (cid : String) (tc : List Entry)
    (cid' : String) :
    (lookupKey cid' ((compress s cfgs relay now cid tc).2).dirs).map
        ConvData.raw_context
      = (lookupKey cid' s.dirs).map ConvData.raw_context := by
  rcases compress_cases s cfgs relay now cid tc with h | ⟨summ, h⟩
  · rw [h]
  · rw [h, uac_raw]

theorem compress_dirs_isSome (s : Store) (cfgs : List (String × AIConfig))
    (relay : RelayOutcome) (now : Nat) (cid : String) (tc : List Entry)
    (cid' : String) :
    (lookupKey cid' ((compress s cfgs relay now cid tc).2).dirs).isSome
      = (lookupKey cid' s.dirs).isSome := by
  have h := congrArg Option.isSome (compress_raw s cfgs relay now cid tc cid')
  simpa using h

theorem compress_dirs_ne (s : Store) (cfgs : List (String × AIConfig))
    (relay : RelayOutcome) (now : Nat) (cid : String) (tc : List Entry)
    {cid' : String} (hc : cid' ≠ cid) :
    lookupKey cid' ((compress s cfgs relay now cid tc).2).dirs
      = lookupKey cid' s.dirs := by
  rcases compress_cases s cfgs relay now cid tc with h | ⟨summ, h⟩
  · rw [h]
  · rw [h, uac_dirs_ne _ _ _ _ _ hc]

theorem compress_tactical_cases (s : Store) (cfgs : List (String × AIConfig))
    (relay : RelayOutcome) (now : Nat) (cid : String) (tc : List Entry) :
    tacticalOf ((compress s cfgs relay now cid tc).2) cid = tacticalOf s cid
    ∨ (5 < (tacticalOf s cid).length ∧
        tacticalOf ((compress s cfgs relay now cid tc).2) cid
          = sliceLast 5 (tacticalOf s cid)) := by
  rcases compress_cases s cfgs relay now cid tc with h | ⟨summ, h⟩
  · rw [h]
    exact Or.inl rfl
  · rw [h]
    exact uac_tactical_cases s now cid summ 5

theorem pyStrip_empty : pyStrip "" = "" := rfl

theorem compress_empty_reply (s : Store) (cfgs : List (String × AIConfig))
    (now : Nat) (cid : String) (tc : List Entry) (resp : AIResponse)
    (hemp : pyStrip ((extract_openai_response resp).message.getD "") = "") :
    compress s cfgs (RelayOutcome.reply resp) now cid tc = (false, s) := by
  have hall : ∀ p : String,
      pyStrip ((extract_ai_response resp p).message.getD "") = "" := by
    intro p
    unfold extract_ai_response
    by_cases hp : p = "openai" ∨ p = "deepseek" ∨ p = "ollama" ∨ p = "siliconflow"
    · simpa [hp] using hemp
    · simp [hp, Extracted.empty, pyStrip_empty]
  unfold compress
  by_cases h1 : tc.length ≤ 10
  · simp [h1]
  · simp only [h1, if_false]
    cases h2 : get_conversation_context s cid with
    | none => rfl
    | some p =>
      obtain ⟨metadata, dd⟩ := p
      by_cases h3 : metadata.ai = ""
      · simp [h3]
      · simp only [h3, if_false]
        cases h4 : lookupKey metadata.ai cfgs with
        | none => rfl
        | some ai_config =>
          by_cases h5 : tc.length ≤ 5
          · simp [h5]
          · simp only [h5, if_false]
            by_cases h6 : (sliceDropLast 5 tc).length = 0
            · simp [h6]
            · simp only [h6, if_false]
              by_cases h7 : (match (extract_ai_response resp
                  ai_config.provider).tools.getD [] with
                | tool_call :: _ =>
                  (tool_call.function.name = "no_compress" : Bool)
                | [] => false) = true
              · simp [h7]
              · simp [h7, hall ai_config.provider]

theorem compress_unknown_provider (s : Store) (cfgs : List (String × AIConfig))
    (now : Nat) (cid : String) (tc : List Entry) (resp : AIResponse)
    (m : Meta) (c : AIConfig)
    (h1 : lookupKey cid s.conversations = some m)
    (h3 : lookupKey m.ai cfgs = some c)
    (hp : ¬(c.provider = "openai" ∨ c.provider = "deepseek" ∨
        c.provider = "ollama" ∨ c.provider = "siliconflow")) :
    compress s cfgs (RelayOutcome.reply resp) now cid tc = (false, s) := by
  have he : extract_ai_response resp c.provider = Extracted.empty := by
    unfold extract_ai_response
    rw [if_neg hp]
  unfold compress
  by_cases g1 : tc.length ≤ 10
  · simp [g1]
  · simp only [g1, if_false]
    cases h2 : get_conversation_context s cid with
    | none => rfl
    | some p =>
      obtain ⟨metadata, dd⟩ := p
      have hmeta : metadata = m := by
        unfold get_conversation_context at h2
        rw [h1] at h2
        cases h2d : lookupKey cid s.dirs with
        | none => rw [h2d] at h2; cases h2
        | some d0 => rw [h2d] at h2; cases h2; rfl
      subst hmeta
      by_cases g2 : metadata.ai = ""
      · simp [g2]
      · simp only [g2, if_false]
        rw [h3]
        by_cases g3 : tc.length ≤ 5
        · simp [g3]
        · simp only [g3, if_false]
          by_cases g4 : (sliceDropLast 5 tc).length = 0
          · simp [g4]
          · simp [g4, he, Extracted.empty, pyStrip_empty]

/-! Step lemmas for `add_message`. -/

theorem add_message_not_found (s : Store) (cfgs : List (String × AIConfig))
    (relay : RelayOutcome) (now : Nat) (cid role content : String)
    (tcs : Option (List ToolCall)) (fr : Option String) (tt : Nat)
    (h1 : lookupKey cid s.conversations = none) :
    add_message s cfgs relay now cid role content tcs fr tt = (false, s) := by
  unfold add_message
  simp [h1]

theorem add_message_no_dir (s : Store) (cfgs : List (String × AIConfig))
    (relay : RelayOutcome) (now : Nat) (cid role content : String)
    (tcs : Option (List ToolCall)) (fr : Option String) (tt : Nat) (m : Meta)
    (h1 : lookupKey cid s.conversations = some m)
    (h2 : lookupKey cid s.dirs = none) :
    add_message s cfgs relay now cid role content tcs fr tt = (false, s) := by
  unfold add_message
  simp [h1, h2]

theorem add_message_pos (s : Store) (cfgs : List (String × AIConfig))
    (relay : RelayOutcome) (now : Nat) (cid role content : String)
    (tcs : Option (List ToolCall)) (fr : Option String) (tt : Nat)
    (m : Meta) (d : ConvData)
    (h1 : lookupKey cid s.conversations = some m)
    (h2 : lookupKey cid s.dirs = some d)
    (h3 : 0 < m.interval) :
    add_message s cfgs relay now cid role content tcs fr tt =
      (true,
        ⟨setKey cid
            { m with
              message_count := m.message_count + 1
              updated := now
              interval := m.interval - 1 }
            s.conversations,
         setKey cid
            { d with
              raw_context := d.raw_context ++ [mkMessage now role content tcs fr tt]
              tactical := d.tactical ++ [mkMessage now role content tcs fr tt] }
            s.dirs⟩) := by
  unfold add_message mkMessage
  simp only [h1, h2]
  rw [if_pos (by simpa using h3)]
  rw [setKey_setKey]

theorem add_message_zero (s : Store) (cfgs : List (String × AIConfig))
    (relay : RelayOutcome) (now : Nat) (cid role content : String)
    (tcs : Option (List ToolCall)) (fr : Option String) (tt : Nat)
    (m : Meta) (d : ConvData)
    (h1 : lookupKey cid s.conversations = some m)
    (h2 : lookupKey cid s.dirs = some d)
    (h3 : m.interval ≤ 0) :
    add_message s cfgs relay now cid role content tcs fr tt =
      (true,
        ⟨updateKey cid
            (fun mm => { mm with interval := 10, last_compress_attempt := now })
            ((compress (postAppendStore s cid now role content tcs fr tt m d)
                cfgs relay now cid
                (d.tactical ++ [mkMessage now role content tcs fr tt])).2).conversations,
         ((compress (postAppendStore s cid now role content tcs fr tt m d)
             cfgs relay now cid
             (d.tactical ++ [mkMessage now role content tcs fr tt])).2).dirs⟩) := by
  unfold add_message postAppendStore mkMessage
  simp only [h1, h2]
  rw [if_neg (by simpa using not_lt.mpr h3)]

theorem sliceLast_suffix_last {α : Type} (k : Nat) (x : List α) (e : α)
    (hk : k ≠ 0) : ∃ t, sliceLast k (x ++ [e]) = t ++ [e] := by
  unfold sliceLast
  rw [if_neg hk]
  refine ⟨x.drop ((x ++ [e]).length - k), ?_⟩
  rw [List.drop_append_of_le_length]
  simp only [List.length_append, List.length_cons, List.length_nil]
  omega

theorem add_message_zero_conv_self (s : Store) (cfgs : List (String × AIConfig))
    (relay : RelayOutcome) (now : Nat) (cid role content : String)
    (tcs : Option (List ToolCall)) (fr : Option String) (tt : Nat)
    (m : Meta) (d : ConvData)
    (h1 : lookupKey cid s.conversations = some m)
    (h2 : lookupKey cid s.dirs = some d)
    (h3 : m.interval ≤ 0) :
    lookupKey cid
        ((add_message s cfgs relay now cid role content tcs fr tt).2).conversations
      = some
          { m with
            message_count := m.message_count + 1
            updated := now
            interval := 10
            last_compress_attempt := now } := by
  rw [add_message_zero s cfgs relay now cid role content tcs fr tt m d h1 h2 h3]
  show lookupKey cid (updateKey cid _ _) = _
  rw [lookup_updateKey_self, compress_conversations]
  show (lookupKey cid (setKey cid _ s.conversations)).map _ = _
  rw [lookup_setKey_self]
  rfl

theorem add_message_zero_conv_ne (s : Store) (cfgs : List (String × AIConfig))
    (relay : RelayOutcome) (now : Nat) (cid role content : String)
    (tcs : Option (List ToolCall)) (fr : Option String) (tt : Nat)
    (m : Meta) (d : ConvData)
    (h1 : lookupKey cid s.conversations = some m)
    (h2 : lookupKey cid s.dirs = some d)
    (h3 : m.interval ≤ 0) {cid' : String} (hc : cid' ≠ cid) :
    lookupKey cid'
        ((add_message s cfgs relay now cid role content tcs fr tt).2).conversations
      = lookupKey cid' s.conversations := by
  rw [add_message_zero s cfgs relay now cid role content tcs fr tt m d h1 h2 h3]
  show lookupKey cid' (updateKey cid _ _) = _
  rw [lookup_updateKey_ne _ _ hc, compress_conversations]
  show lookupKey cid' (setKey cid _ s.conversations) = _
  rw [lookup_setKey_ne _ _ hc]

theorem add_message_zero_raw_self (s : Store) (cfgs : List (String × AIConfig))
    (relay : RelayOutcome) (now : Nat) (cid role content : String)
    (tcs : Option (List ToolCall)) (fr : Option String) (tt : Nat)
    (m : Meta) (d : ConvData)
    (h1 : lookupKey cid s.conversations = some m)
    (h2 : lookupKey cid s.dirs = some d)
    (h3 : m.interval ≤ 0) :
    (lookupKey cid
        ((add_message s cfgs relay now cid role content tcs fr tt).2).dirs).map
        ConvData.raw_context
      = some (d.raw_context ++ [mkMessage now role content tcs fr tt]) := by
  rw [add_message_zero s cfgs relay now cid role content tcs fr tt m d h1 h2 h3]
  show (lookupKey cid ((compress _ _ _ _ _ _).2).dirs).map _ = _
  rw [compress_raw]
  show (lookupKey cid (setKey cid _ s.dirs)).map _ = _
  rw [lookup_setKey_self]
  rfl

theorem add_message_zero_dirs_ne (s : Store) (cfgs : List (String × AIConfig))
    (relay : RelayOutcome) (now : Nat) (cid role content : String)
    (tcs : Option (List ToolCall)) (fr : Option String) (tt : Nat)
    (m : Meta) (d : ConvData)
    (h1 : lookupKey cid s.conversations = some m)
    (h2 : lookupKey cid s.dirs = some d)
    (h3 : m.interval ≤ 0) {cid' : String} (hc : cid' ≠ cid) :
    lookupKey cid'
        ((add_message s cfgs relay now cid role content tcs fr tt).2).dirs
      = lookupKey cid' s.dirs := by
  rw [add_message_zero s cfgs relay now cid role content tcs fr tt m d h1 h2 h3]
  show lookupKey cid' ((compress _ _ _ _ _ _).2).dirs = _
  rw [compress_dirs_ne _ _ _ _ _ _ hc]
  show lookupKey cid' (setKey cid _ s.dirs) = _
  rw [lookup_setKey_ne _ _ hc]

theorem add_message_zero_dirs_isSome (s : Store) (cfgs : List (String × AIConfig))
    (relay : RelayOutcome) (now : Nat) (cid role content : String)
    (tcs : Option (List ToolCall)) (fr : Option String) (tt : Nat)
    (m : Meta) (d : ConvData)
    (h1 : lookupKey cid s.conversations = some m)
    (h2 : lookupKey cid s.dirs = some d)
    (h3 : m.interval ≤ 0) (cid' : String) :
    (lookupKey cid'
        ((add_message s cfgs relay now cid role content tcs fr tt).2).dirs).isSome
      = (lookupKey cid' s.dirs).isSome := by
  by_cases hc : cid' = cid
  · subst hc
    have h := congrArg Option.isSome
      (add_message_zero_raw_self s cfgs relay now cid' role content tcs fr tt
        m d h1 h2 h3)
    simp only [Option.isSome_map'] at h
    rw [h, h2]
    rfl
  · rw [add_message_zero_dirs_ne s cfgs relay now cid role content tcs fr tt
      m d h1 h2 h3 hc]

theorem add_message_zero_tactical (s : Store) (cfgs : List (String × AIConfig))
    (relay : RelayOutcome) (now : Nat) (cid role content : String)
    (tcs : Option (List ToolCall)) (fr : Option String) (tt : Nat)
    (m : Meta) (d : ConvData)
    (h1 : lookupKey cid s.conversations = some m)
    (h2 : lookupKey cid s.dirs = some d)
    (h3 : m.interval ≤ 0) :
    ∃ t, tacticalOf ((add_message s cfgs relay now cid role content tcs fr tt).2) cid
      = t ++ [mkMessage now role content tcs fr tt] := by
  rw [add_message_zero s cfgs relay now cid role content tcs fr tt m d h1 h2 h3]
  have hS1 : tacticalOf (postAppendStore s cid now role content tcs fr tt m d) cid
      = d.tactical ++ [mkMessage now role content tcs fr tt] := by
    unfold tacticalOf postAppendStore
    rw [lookup_setKey_self]
    rfl
  have heq : tacticalOf
      (⟨updateKey cid
          (fun mm => { mm with interval := 10, last_compress_attempt := now })
          ((compress (postAppendStore s cid now role content tcs fr tt m d)
              cfgs relay now cid
              (d.tactical ++ [mkMessage now role content tcs fr tt])).2).conversations,
        ((compress (postAppendStore s cid now role content tcs fr tt m d)
            cfgs relay now cid
            (d.tactical ++ [mkMessage now role content tcs fr tt])).2).dirs⟩ : Store) cid
      = tacticalOf ((compress (postAppendStore s cid now role content tcs fr tt m d)
          cfgs relay now cid
          (d.tactical ++ [mkMessage now role content tcs fr tt])).2) cid := rfl
  rw [heq]
  rcases compress_tactical_cases (postAppendStore s cid now role content tcs fr tt m d)
      cfgs relay now cid (d.tactical ++ [mkMessage now role content tcs fr tt]) with
    hcase | ⟨hlen, hcase⟩
  · exact ⟨d.tactical, by rw [hcase, hS1]⟩
  · rw [hcase, hS1]
    exact sliceLast_suffix_last 5 d.tactical _ (by decide)

/-! Lemmas about runs of appends. -/

theorem invokesCompactor_some (s : Store) (cid : String) (m : Meta) (d : ConvData)
    (h1 : lookupKey cid s.conversations = some m)
    (h2 : lookupKey cid s.dirs = some d) :
    invokesCompactor s cid = decide (m.interval ≤ 0) := by
  unfold invokesCompactor
  rw [h1, h2]

theorem invokesCompactor_pos (s : Store) (cid : String) (m : Meta) (d : ConvData)
    (h1 : lookupKey cid s.conversations = some m)
    (h2 : lookupKey cid s.dirs = some d)
    (h3 : 0 < m.interval) :
    invokesCompactor s cid = false := by
  rw [invokesCompactor_some s cid m d h1 h2]
  simp
  omega

theorem appendRun_append (cfgs : List (String × AIConfig)) (relay : RelayOutcome)
    (cid : String) (xs ys : List AppendInput) (s : Store) :
    appendRun cfgs relay cid (xs ++ ys) s =
      ((appendRun cfgs relay cid ys (appendRun cfgs relay cid xs s).1).1,
        (appendRun cfgs relay cid xs s).2 +
          (appendRun cfgs relay cid ys (appendRun cfgs relay cid xs s).1).2) := by
  induction xs generalizing s with
  | nil => simp [appendRun]
  | cons a rest ih =>
    simp only [List.cons_append, List.append_eq, appendRun]
    rw [ih]
    simp [Nat.add_assoc]

theorem appendRun_pos (cfgs : List (String × AIConfig)) (relay : RelayOutcome)
    (cid : String) :
    ∀ (msgs : List AppendInput) (s : Store) (m : Meta) (d : ConvData),
      lookupKey cid s.conversations = some m →
      lookupKey cid s.dirs = some d →
      (msgs.length : Int) ≤ m.interval →
      (appendRun cfgs relay cid msgs s).2 = 0 ∧
      ∃ m', lookupKey cid ((appendRun cfgs relay cid msgs s).1).conversations
          = some m' ∧
        m'.interval = m.interval - msgs.length ∧
        m'.message_count = m.message_count + msgs.length ∧
        m'.last_compress_attempt = m.last_compress_attempt ∧
      ∃ d', lookupKey cid ((appendRun cfgs relay cid msgs s).1).dirs = some d' ∧
        d'.raw_context = d.raw_context ++ msgs.map msgEntry ∧
        d'.tactical = d.tactical ++ msgs.map msgEntry ∧
        d'.archive = d.archive := by
  intro msgs
  induction msgs with
  | nil =>
    intro s m d h1 h2 hlen
    exact ⟨rfl, m, h1, by simp, by simp, rfl, d, h2, by simp, by simp, rfl⟩
  | cons a rest ih =>
    intro s m d h1 h2 hlen
    have hlen1 : ((a :: rest).length : Int) = (rest.length : Int) + 1 := by
      push_cast [List.length_cons]
      ring
    have hpos : 0 < m.interval := by omega
    have hfire : invokesCompactor s cid = false :=
      invokesCompactor_pos s cid m d h1 h2 hpos
    have hadd := add_message_pos s cfgs relay a.now cid a.role a.content
      a.tool_calls a.finish_reason a.total_tokens m d h1 h2 hpos
    have h1' : lookupKey cid
        ((add_message s cfgs relay a.now cid a.role a.content a.tool_calls
          a.finish_reason a.total_tokens).2).conversations
        = some
            { m with
              message_count := m.message_count + 1
              updated := a.now
              interval := m.interval - 1 } := by
      rw [hadd]
      exact lookup_setKey_self cid _ s.conversations
    have h2' : lookupKey cid
        ((add_message s cfgs relay a.now cid a.role a.content a.tool_calls
          a.finish_reason a.total_tokens).2).dirs
        = some
            { d with
              raw_context := d.raw_context ++
                [mkMessage a.now a.role a.content a.tool_calls
                  a.finish_reason a.total_tokens]
              tactical := d.tactical ++
                [mkMessage a.now a.role a.content a.tool_calls
                  a.finish_reason a.total_tokens] } := by
      rw [hadd]
      exact lookup_setKey_self cid _ s.dirs
    obtain ⟨hcnt, m', hm', hint, hmc, hlca, d', hd', hraw, htac, harch⟩ :=
      ih ((add_message s cfgs relay a.now cid a.role a.content a.tool_calls
            a.finish_reason a.total_tokens).2) _ _ h1' h2'
        (by dsimp only
            omega)
    have hrun1 : (appendRun cfgs relay cid (a :: rest) s).1
        = (appendRun cfgs relay cid rest
            ((add_message s cfgs relay a.now cid a.role a.content a.tool_calls
              a.finish_reason a.total_tokens).2)).1 := by
      simp [appendRun, hfire]
    have hrun2 : (appendRun cfgs relay cid (a :: rest) s).2
        = (appendRun cfgs relay cid rest
            ((add_message s cfgs relay a.now cid a.role a.content a.tool_calls
              a.finish_reason a.total_tokens).2)).2 := by
      simp [appendRun, hfire]
    dsimp only at hint hmc hlca hraw htac harch
    refine ⟨by rw [hrun2]; exact hcnt, m', by rw [hrun1]; exact hm', ?_, ?_,
      hlca, d', by rw [hrun1]; exact hd', ?_, ?_, harch⟩
    · rw [hint, hlen1]
      ring
    · rw [hmc]
      simp [List.length_cons]
      omega
    · rw [hraw]
      simp [msgEntry, List.append_assoc]
    · rw [htac]
      simp [msgEntry, List.append_assoc]

/-- The inductive store invariant: the metadata map and the directory map
have the same keys, the countdown of every conversation stays in
`[0, 10]`, and the metadata `message_count` always equals the length of
the raw tier. -/
theorem reachable_inv {s : Store} (h : Reachable s) :
    ∀ cid, ((lookupKey cid s.conversations).isSome = (lookupKey cid s.dirs).isSome)
      ∧ ∀ m, lookupKey cid s.conversations = some m →
          (0 ≤ m.interval ∧ m.interval ≤ 10) ∧
          ∀ d, lookupKey cid s.dirs = some d →
            m.message_count = d.raw_context.length := by
  induction h with
  | init =>
    intro cid
    exact ⟨rfl, by intro m hm; simp [lookupKey] at hm⟩
  | step hr hstep ih =>
    rename_i s0 s1
    cases hstep with
    | create now cid0 name pt ai dev hfresh =>
      intro cid
      unfold create_conversation
      dsimp only
      by_cases hc : cid = cid0
      · subst hc
        constructor
        · rw [lookup_setKey_self, lookup_setKey_self]
          rfl
        · intro m hm
          rw [lookup_setKey_self] at hm
          cases hm
          refine ⟨⟨by norm_num, by norm_num⟩, ?_⟩
          intro d hd
          rw [lookup_setKey_self] at hd
          cases hd
          rfl
      · constructor
        · rw [lookup_setKey_ne _ _ hc, lookup_setKey_ne _ _ hc]
          exact (ih cid).1
        · intro m hm
          rw [lookup_setKey_ne _ _ hc] at hm
          refine ⟨((ih cid).2 m hm).1, ?_⟩
          intro d hd
          rw [lookup_setKey_ne _ _ hc] at hd
          exact ((ih cid).2 m hm).2 d hd
    | add cfgs relay now cid0 role content tcs fr tt =>
      intro cid
      cases hm0 : lookupKey cid0 s0.conversations with
      | none =>
        rw [add_message_not_found s0 cfgs relay now cid0 role content tcs fr tt hm0]
        exact ih cid
      | some m0 =>
        cases hd0 : lookupKey cid0 s0.dirs with
        | none =>
          rw [add_message_no_dir s0 cfgs relay now cid0 role content tcs fr tt
            m0 hm0 hd0]
          exact ih cid
        | some d0 =>
          by_cases hint : 0 < m0.interval
          · rw [add_message_pos s0 cfgs relay now cid0 role content tcs fr tt
              m0 d0 hm0 hd0 hint]
            dsimp only
            by_cases hc : cid = cid0
            · subst hc
              have hb := ((ih cid).2 m0 hm0).1
              have hmc := ((ih cid).2 m0 hm0).2 d0 hd0
              constructor
              · rw [lookup_setKey_self, lookup_setKey_self]
                rfl
              · intro m hm
                rw [lookup_setKey_self] at hm
                cases hm
                refine ⟨⟨by dsimp only; omega, by dsimp only; omega⟩, ?_⟩
                intro d hd
                rw [lookup_setKey_self] at hd
                cases hd
                dsimp only
                simp [List.length_append]
                omega
            · constructor
              · rw [lookup_setKey_ne _ _ hc, lookup_setKey_ne _ _ hc]
                exact (ih cid).1
              · intro m hm
                rw [lookup_setKey_ne _ _ hc] at hm
                refine ⟨((ih cid).2 m hm).1, ?_⟩
                intro d hd
                rw [lookup_setKey_ne _ _ hc] at hd
                exact ((ih cid).2 m hm).2 d hd
          · have hle : m0.interval ≤ 0 := not_lt.mp hint
            by_cases hc : cid = cid0
            · subst hc
              have hmc := ((ih cid).2 m0 hm0).2 d0 hd0
              constructor
              · rw [add_message_zero_conv_self s0 cfgs relay now cid role content
                  tcs fr tt m0 d0 hm0 hd0 hle]
                rw [add_message_zero_dirs_isSome s0 cfgs relay now cid role content
                  tcs fr tt m0 d0 hm0 hd0 hle cid]
                rw [hd0]
                rfl
              · intro m hm
                rw [add_message_zero_conv_self s0 cfgs relay now cid role content
                  tcs fr tt m0 d0 hm0 hd0 hle] at hm
                cases hm
                refine ⟨⟨by dsimp only; omega, by dsimp only; omega⟩, ?_⟩
                intro d hd
                have hraw := add_message_zero_raw_self s0 cfgs relay now cid role
                  content tcs fr tt m0 d0 hm0 hd0 hle
                rw [hd] at hraw
                simp only [Option.map_some', Option.some.injEq] at hraw
                rw [hraw]
                dsimp only
                simp [List.length_append]
                omega
            · constructor
              · rw [add_message_zero_conv_ne s0 cfgs relay now cid0 role content
                  tcs fr tt m0 d0 hm0 hd0 hle hc]
                rw [add_message_zero_dirs_ne s0 cfgs relay now cid0 role content
                  tcs fr tt m0 d0 hm0 hd0 hle hc]
                exact (ih cid).1
              · intro m hm
                rw [add_message_zero_conv_ne s0 cfgs relay now cid0 role content
                  tcs fr tt m0 d0 hm0 hd0 hle hc] at hm
                refine ⟨((ih cid).2 m hm).1, ?_⟩
                intro d hd
                rw [add_message_zero_dirs_ne s0 cfgs relay now cid0 role content
                  tcs fr tt m0 d0 hm0 hd0 hle hc] at hd
                exact ((ih cid).2 m hm).2 d hd
    | compact now cid0 summ keep =>
      intro cid
      constructor
      · rw [uac_conversations, uac_dirs_isSome]
        exact (ih cid).1
      · intro m hm
        rw [uac_conversations] at hm
        refine ⟨((ih cid).2 m hm).1, ?_⟩
        intro d hd
        have hraw := uac_raw s0 now cid0 summ keep cid
        rw [hd] at hraw
        cases hd0 : lookupKey cid s0.dirs with
        | none =>
          rw [hd0] at hraw
          simp at hraw
        | some d0 =>
          rw [hd0] at hraw
          simp only [Option.map_some', Option.some.injEq] at hraw
          rw [hraw]
          exact ((ih cid).2 m hm).2 d0 hd0

/-- Every successful `add_message` against an existing conversation
returns `True`, bumps `message_count` by one, appends the message to the
raw tier, and leaves the active tier ending in that message (even when a
triggered compaction folds older entries away). -/
theorem add_message_appends (s : Store) (cfgs : List (String × AIConfig))
    (relay : RelayOutcome) (now : Nat) (cid role content : String)
    (tcs : Option (List ToolCall)) (fr : Option String) (tt : Nat)
    (m : Meta) (d : ConvData)
    (h1 : lookupKey cid s.conversations = some m)
    (h2 : lookupKey cid s.dirs = some d) :
    (add_message s cfgs relay now cid role content tcs fr tt).1 = true ∧
    (lookupKey cid
        ((add_message s cfgs relay now cid role content tcs fr tt).2).conversations).map
        Meta.message_count = some (m.message_count + 1) ∧
    rawOf ((add_message s cfgs relay now cid role content tcs fr tt).2) cid
      = rawOf s cid ++ [mkMessage now role content tcs fr tt] ∧
    ∃ t, tacticalOf ((add_message s cfgs relay now cid role content tcs fr tt).2) cid
      = t ++ [mkMessage now role content tcs fr tt] := by
  have hrawS : rawOf s cid = d.raw_context := by
    unfold rawOf
    rw [h2]
    rfl
  by_cases hint : 0 < m.interval
  · rw [add_message_pos s cfgs relay now cid role content tcs fr tt m d h1 h2 hint]
    refine ⟨rfl, ?_, ?_, d.tactical, ?_⟩
    · show (lookupKey cid (setKey cid _ s.conversations)).map _ = _
      rw [lookup_setKey_self]
      rfl
    · show ((lookupKey cid (setKey cid _ s.dirs)).map _).getD [] = _
      rw [lookup_setKey_self, hrawS]
      rfl
    · show ((lookupKey cid (setKey cid _ s.dirs)).map _).getD [] = _
      rw [lookup_setKey_self]
      rfl
  · have hle : m.interval ≤ 0 := not_lt.mp hint
    refine ⟨?_, ?_, ?_, ?_⟩
    · rw [add_message_zero s cfgs relay now cid role content tcs fr tt m d h1 h2 hle]
    · rw [add_message_zero_conv_self s cfgs relay now cid role content tcs fr tt
        m d h1 h2 hle]
      rfl
    · unfold rawOf
      rw [add_message_zero_raw_self s cfgs relay now cid role content tcs fr tt
        m d h1 h2 hle, h2]
      rfl
    · exact add_message_zero_tactical s cfgs relay now cid role content tcs fr tt
        m d h1 h2 hle

/-- One store transition never removes or reorders raw-tier entries: the
raw tier of every conversation in the successor state extends the raw
tier in the predecessor state. -/
theorem step_raw_extends {s s' : Store} (hs : Reachable s) (hstep : Step s s')
    (cid : String) : ∃ t, rawOf s' cid = rawOf s cid ++ t := by
  cases hstep with
  | create now cid0 name pt ai dev hfresh =>
    by_cases hc : cid = cid0
    · subst hc
      have hsync := (reachable_inv hs cid).1
      rw [hfresh] at hsync
      have hdir : lookupKey cid s.dirs = none := by
        cases hdd : lookupKey cid s.dirs with
        | none => rfl
        | some d0 => rw [hdd] at hsync; cases hsync
      refine ⟨[], ?_⟩
      unfold rawOf create_conversation
      dsimp only
      rw [lookup_setKey_self, hdir]
      rfl
    · refine ⟨[], ?_⟩
      unfold rawOf create_conversation
      dsimp only
      rw [lookup_setKey_ne _ _ hc]
      simp
  | add cfgs relay now cid0 role content tcs fr tt =>
    cases hm0 : lookupKey cid0 s.conversations with
    | none =>
      rw [add_message_not_found s cfgs relay now cid0 role content tcs fr tt hm0]
      exact ⟨[], by simp⟩
    | some m0 =>
      cases hd0 : lookupKey cid0 s.dirs with
      | none =>
        rw [add_message_no_dir s cfgs relay now cid0 role content tcs fr tt m0
          hm0 hd0]
        exact ⟨[], by simp⟩
      | some d0 =>
        by_cases hc : cid = cid0
        · subst hc
          obtain ⟨-, -, hraw, -⟩ := add_message_appends s cfgs relay now cid role
            content tcs fr tt m0 d0 hm0 hd0
          exact ⟨[mkMessage now role content tcs fr tt], hraw⟩
        · by_cases hint : 0 < m0.interval
          · rw [add_message_pos s cfgs relay now cid0 role content tcs fr tt
              m0 d0 hm0 hd0 hint]
            refine ⟨[], ?_⟩
            unfold rawOf
            dsimp only
            rw [lookup_setKey_ne _ _ hc]
            simp
          · rw [add_message_zero s cfgs relay now cid0 role content tcs fr tt
              m0 d0 hm0 hd0 (not_lt.mp hint)]
            refine ⟨[], ?_⟩
            unfold rawOf
            dsimp only
            rw [compress_dirs_ne _ _ _ _ _ _ hc]
            show ((lookupKey cid (setKey cid0 _ s.dirs)).map _).getD [] = _
            rw [lookup_setKey_ne _ _ hc]
            simp
  | compact now cid0 summ keep =>
    refine ⟨[], ?_⟩
    unfold rawOf
    rw [uac_raw]
    simp

/-! The claims. -/

/-- C1, counterexample to the claim as stated: on a freshly created
conversation, after exactly 10 successful appends the Compactor has been
invoked zero times (not once) and the countdown is 0 (not 10): every one
of the ten appends still sees a positive countdown and only decrements
it; `add_message` reaches the `compress` call only on the *next* append. -/
theorem c1_counterexample :
    (appendRun [] RelayOutcome.error "c" tenInputs freshStore).2 = 0 ∧
    (appendRun [] RelayOutcome.error "c" tenInputs freshStore).2 ≠ 1 ∧
    (lookupKey "c"
        ((appendRun [] RelayOutcome.error "c" tenInputs freshStore).1).conversations).map
        Meta.interval = some 0 ∧
    (lookupKey "c"
        ((appendRun [] RelayOutcome.error "c" tenInputs freshStore).1).conversations).map
        Meta.interval ≠ some 10 ∧
    (lookupKey "c"
        ((appendRun [] RelayOutcome.error "c" tenInputs freshStore).1).conversations).map
        Meta.last_compress_attempt = some 0 := by
  refine ⟨by decide, by decide, by decide, by decide, by decide⟩

/-- C1, amended: for a freshly created conversation
(`compactionCountdown = countdownPeriod = 10`), the first 10 successful
appends trigger no compaction attempt and leave the countdown at 0; the
compaction trigger fires exactly once on the 11th append (the Compactor
guard holds in the pre-state of that append), and immediately after
firing — regardless of the compaction outcome, i.e. for every relay
outcome and config table — the countdown equals 10 again and
`last_compress_attempt` records the attempt. -/
theorem c1_trigger_fires_on_eleventh (base : Store)
    (cfgs : List (String × AIConfig)) (relay : RelayOutcome) (now0 : Nat)
    (cid name prompt_type ai_uuid device_id : String)
    (msgs : List AppendInput) (a : AppendInput) (s0 : Store)
    (hs0 : s0 = create_conversation base now0 cid name prompt_type ai_uuid device_id)
    (hlen : msgs.length = 10) :
    (appendRun cfgs relay cid msgs s0).2 = 0 ∧
    (lookupKey cid ((appendRun cfgs relay cid msgs s0).1).conversations).map
        Meta.interval = some 0 ∧
    (appendRun cfgs relay cid (msgs ++ [a]) s0).2 = 1 ∧
    (lookupKey cid
        ((appendRun cfgs relay cid (msgs ++ [a]) s0).1).conversations).map
        Meta.interval = some 10 ∧
    (lookupKey cid
        ((appendRun cfgs relay cid (msgs ++ [a]) s0).1).conversations).map
        Meta.last_compress_attempt = some a.now := by
  subst hs0
  have h1 : lookupKey cid
      (create_conversation base now0 cid name prompt_type ai_uuid
        device_id).conversations
      = some
          { name := name, prompt := prompt_type, ai := ai_uuid, interval := 10,
            device := device_id, created := now0, updated := now0,
            message_count := 0, last_compress_attempt := 0 } := by
    unfold create_conversation
    exact lookup_setKey_self _ _ _
  have h2 : lookupKey cid
      (create_conversation base now0 cid name prompt_type ai_uuid device_id).dirs
      = some ⟨[], [], []⟩ := by
    unfold create_conversation
    exact lookup_setKey_self _ _ _
  obtain ⟨hcnt, m', hm', hint, hmc, hlca, d', hd', hraw, htac, harch⟩ :=
    appendRun_pos cfgs relay cid msgs _ _ _ h1 h2 (by rw [hlen]; simp)
  have hint0 : m'.interval = 0 := by
    rw [hint, hlen]
    dsimp only
    norm_num
  have hfire : invokesCompactor
      ((appendRun cfgs relay cid msgs
        (create_conversation base now0 cid name prompt_type ai_uuid
          device_id)).1) cid = true := by
    rw [invokesCompactor_some _ cid m' d' hm' hd', hint0]
    rfl
  refine ⟨hcnt, ?_, ?_, ?_, ?_⟩
  · rw [hm']
    simp [hint0]
  · rw [appendRun_append, hcnt]
    simp [appendRun, hfire]
  · rw [appendRun_append]
    simp only [appendRun]
    rw [add_message_zero_conv_self _ cfgs relay a.now cid a.role a.content
      a.tool_calls a.finish_reason a.total_tokens m' d' hm' hd' (le_of_eq hint0)]
    rfl
  · rw [appendRun_append]
    simp only [appendRun]
    rw [add_message_zero_conv_self _ cfgs relay a.now cid a.role a.content
      a.tool_calls a.finish_reason a.total_tokens m' d' hm' hd' (le_of_eq hint0)]
    rfl

theorem c1_trigger_fires_on_eleventh_witness :
    tenInputs.length = 10 ∧
    ((appendRun [] RelayOutcome.error "c" tenInputs freshStore).2 = 0 ∧
      (lookupKey "c"
          ((appendRun [] RelayOutcome.error "c" tenInputs freshStore).1).conversations).map
          Meta.interval = some 0 ∧
      (appendRun [] RelayOutcome.error "c" (tenInputs ++ [eleventhInput])
          freshStore).2 = 1 ∧
      (lookupKey "c"
          ((appendRun [] RelayOutcome.error "c" (tenInputs ++ [eleventhInput])
            freshStore).1).conversations).map Meta.interval = some 10 ∧
      (lookupKey "c"
          ((appendRun [] RelayOutcome.error "c" (tenInputs ++ [eleventhInput])
            freshStore).1).conversations).map Meta.last_compress_attempt
        = some eleventhInput.now) :=
  ⟨by decide,
    c1_trigger_fires_on_eleventh ⟨[], []⟩ [] RelayOutcome.error 0 "c" "chat"
      "common" "a1" "dev" tenInputs eleventhInput freshStore rfl (by decide)⟩

/-- C2: on every reachable store the countdown `interval` of every
conversation lies in `[0, 10]`; it is 10 at creation, a successful append
against a positive countdown decrements it by exactly one, an append
against an expired countdown (a compaction attempt, successful or not)
restores it to 10, and a direct `update_after_compression` never touches
the metadata at all. -/
theorem c2_countdown_invariant :
    (∀ s : Store, Reachable s → ∀ cid m,
        lookupKey cid s.conversations = some m →
        0 ≤ m.interval ∧ m.interval ≤ 10) ∧
    (∀ (base : Store) (now : Nat) (cid name prompt_type ai_uuid device_id : String),
        (lookupKey cid (create_conversation base now cid name prompt_type ai_uuid
            device_id).conversations).map Meta.interval = some 10) ∧
    (∀ (s : Store) (cfgs : List (String × AIConfig)) (relay : RelayOutcome)
        (now : Nat) (cid role content : String) (tcs : Option (List ToolCall))
        (fr : Option String) (tt : Nat) (m : Meta) (d : ConvData),
        lookupKey cid s.conversations = some m →
        lookupKey cid s.dirs = some d →
        0 < m.interval →
        (lookupKey cid ((add_message s cfgs relay now cid role content tcs fr
            tt).2).conversations).map Meta.interval = some (m.interval - 1)) ∧
    (∀ (s : Store) (cfgs : List (String × AIConfig)) (relay : RelayOutcome)
        (now : Nat) (cid role content : String) (tcs : Option (List ToolCall))
        (fr : Option String) (tt : Nat) (m : Meta) (d : ConvData),
        lookupKey cid s.conversations = some m →
        lookupKey cid s.dirs = some d →
        m.interval ≤ 0 →
        (lookupKey cid ((add_message s cfgs relay now cid role content tcs fr
            tt).2).conversations).map Meta.interval = some 10) ∧
    (∀ (s : Store) (now : Nat) (cid summ : String) (keep : Nat) (cid' : String),
        lookupKey cid'
            ((update_after_compression s now cid summ keep).2).conversations
          = lookupKey cid' s.conversations) := by
  refine ⟨?_, ?_, ?_, ?_, ?_⟩
  · intro s hs cid m hm
    exact ((reachable_inv hs cid).2 m hm).1
  · intro base now cid name prompt_type ai_uuid device_id
    unfold create_conversation
    dsimp only
    rw [lookup_setKey_self]
    rfl
  · intro s cfgs relay now cid role content tcs fr tt m d h1 h2 h3
    rw [add_message_pos s cfgs relay now cid role content tcs fr tt m d h1 h2 h3]
    dsimp only
    rw [lookup_setKey_self]
    rfl
  · intro s cfgs relay now cid role content tcs fr tt m d h1 h2 h3
    rw [add_message_zero_conv_self s cfgs relay now cid role content tcs fr tt
      m d h1 h2 h3]
    rfl
  · intro s now cid summ keep cid'
    rw [uac_conversations]

theorem c2_countdown_invariant_witness :
    Reachable freshStore ∧
    lookupKey "c" freshStore.conversations = some freshMeta ∧
    (0 ≤ freshMeta.interval ∧ freshMeta.interval ≤ 10) :=
  have hr : Reachable freshStore :=
    Reachable.step Reachable.init
      (Step.create ⟨[], []⟩ 0 "c" "chat" "common" "a1" "dev" rfl)
  ⟨hr, by decide, c2_countdown_invariant.1 freshStore hr "c" freshMeta (by decide)⟩

/-- C3: `compress` returns `False` and leaves the store untouched, for
every relay outcome (so without consulting the Completion Relay),
whenever the active list has at most 10 entries; consequently appending
10 messages to a fresh conversation triggers no compaction attempt and
leaves the active tier at length 10 with an empty memory tier. -/
theorem c3_compress_skips_short :
    (∀ (s : Store) (cfgs : List (String × AIConfig)) (relay : RelayOutcome)
        (now : Nat) (cid : String) (tc : List Entry),
        tc.length ≤ 10 →
        compress s cfgs relay now cid tc = (false, s)) ∧
    (∀ (base : Store) (cfgs : List (String × AIConfig)) (relay : RelayOutcome)
        (now0 : Nat) (cid name prompt_type ai_uuid device_id : String)
        (msgs : List AppendInput),
        msgs.length = 10 →
        (appendRun cfgs relay cid msgs
            (create_conversation base now0 cid name prompt_type ai_uuid
              device_id)).2 = 0 ∧
        (tacticalOf ((appendRun cfgs relay cid msgs
            (create_conversation base now0 cid name prompt_type ai_uuid
              device_id)).1) cid).length = 10 ∧
        archiveOf ((appendRun cfgs relay cid msgs
            (create_conversation base now0 cid name prompt_type ai_uuid
              device_id)).1) cid = []) := by
  constructor
  · intro s cfgs relay now cid tc h
    unfold compress
    simp [h]
  · intro base cfgs relay now0 cid name prompt_type ai_uuid device_id msgs hlen
    have h1 : lookupKey cid
        (create_conversation base now0 cid name prompt_type ai_uuid
          device_id).conversations
        = some
            { name := name, prompt := prompt_type, ai := ai_uuid, interval := 10,
              device := device_id, created := now0, updated := now0,
              message_count := 0, last_compress_attempt := 0 } := by
      unfold create_conversation
      exact lookup_setKey_self _ _ _
    have h2 : lookupKey cid
        (create_conversation base now0 cid name prompt_type ai_uuid device_id).dirs
        = some ⟨[], [], []⟩ := by
      unfold create_conversation
      exact lookup_setKey_self _ _ _
    obtain ⟨hcnt, m', hm', hint, hmc, hlca, d', hd', hraw, htac, harch⟩ :=
      appendRun_pos cfgs relay cid msgs _ _ _ h1 h2 (by rw [hlen]; simp)
    refine ⟨hcnt, ?_, ?_⟩
    · unfold tacticalOf
      rw [hd']
      dsimp only at htac
      simp [htac, hlen]
    · unfold archiveOf
      rw [hd']
      dsimp only at harch
      simp [harch]

theorem c3_compress_skips_short_witness :
    (wDir.tactical.length ≤ 10 ∧
      compress wStore [] RelayOutcome.error 0 "c" wDir.tactical
        = (false, wStore)) ∧
    (tenInputs.length = 10 ∧
      ((appendRun [] RelayOutcome.error "c" tenInputs freshStore).2 = 0 ∧
        (tacticalOf ((appendRun [] RelayOutcome.error "c" tenInputs
            freshStore).1) "c").length = 10 ∧
        archiveOf ((appendRun [] RelayOutcome.error "c" tenInputs
            freshStore).1) "c" = [])) :=
  ⟨⟨by decide,
      c3_compress_skips_short.1 wStore [] RelayOutcome.error 0 "c"
        wDir.tactical (by decide)⟩,
    ⟨by decide,
      c3_compress_skips_short.2 ⟨[], []⟩ [] RelayOutcome.error 0 "c" "chat"
        "common" "a1" "dev" tenInputs (by decide)⟩⟩

/-- C4: `update_after_compression` with `keep_recent_messages = 5` on an
existing conversation is a no-op success when the active tier has at most
5 entries; otherwise it succeeds, leaves the active tier equal to the
last 5 original entries (same order and content), and appends exactly one
`{"type": "compressed"}` record to the memory tier whose content is the
given summary and whose `original_count` is the number of folded
entries, `L - 5`. -/
theorem c4_apply_compaction (s : Store) (now : Nat) (cid summ : String)
    (m : Meta) (d : ConvData)
    (h1 : lookupKey cid s.conversations = some m)
    (h2 : lookupKey cid s.dirs = some d) :
    (d.tactical.length ≤ 5 →
      update_after_compression s now cid summ 5 = (true, s)) ∧
    (5 < d.tactical.length →
      (update_after_compression s now cid summ 5).1 = true ∧
      tacticalOf ((update_after_compression s now cid summ 5).2) cid
        = d.tactical.drop (d.tactical.length - 5) ∧
      archiveOf ((update_after_compression s now cid summ 5).2) cid
        = d.archive ++ [Entry.summary
            { type := "compressed", content := summ,
              original_count := d.tactical.length - 5, timestamp := now }]) := by
  constructor
  · intro h
    unfold update_after_compression
    simp only [h1, h2]
    rw [if_pos h]
  · intro h
    have hne : ¬ d.tactical.length ≤ 5 := not_le.mpr h
    unfold update_after_compression
    simp only [h1, h2, hne, if_false]
    refine ⟨trivial, ?_, ?_⟩
    · unfold tacticalOf
      dsimp only
      rw [lookup_setKey_self]
      unfold sliceLast
      simp
    · unfold archiveOf
      dsimp only
      rw [lookup_setKey_self]
      unfold sliceDropLast
      simp only [Option.map_some', Option.getD_some]
      rw [if_neg (by decide : ¬ (5 : Nat) = 0)]
      simp [List.length_take, Nat.min_eq_left (Nat.sub_le _ _)]

theorem c4_apply_compaction_witness :
    lookupKey "c" wStore.conversations = some wMeta ∧
    lookupKey "c" wStore.dirs = some wDir ∧
    5 < wDir.tactical.length ∧
    ((update_after_compression wStore 99 "c" "X" 5).1 = true ∧
      tacticalOf ((update_after_compression wStore 99 "c" "X" 5).2) "c"
        = wDir.tactical.drop (wDir.tactical.length - 5) ∧
      archiveOf ((update_after_compression wStore 99 "c" "X" 5).2) "c"
        = wDir.archive ++ [Entry.summary
            { type := "compressed", content := "X",
              original_count := wDir.tactical.length - 5, timestamp := 99 }]) :=
  ⟨by decide, by decide, by decide,
    (c4_apply_compaction wStore 99 "c" "X" wMeta wDir (by decide)
      (by decide)).2 (by decide)⟩

/-- C5: for an existing conversation, `get_context_for_ai` returns the
last `min(M, 8)` memory records in stored order immediately followed by
the whole active tier, so its length is `min(M, 8) + A`. -/
theorem c5_context_assembly (s : Store) (cid : String) (m : Meta) (d : ConvData)
    (h1 : lookupKey cid s.conversations = some m)
    (h2 : lookupKey cid s.dirs = some d) :
    get_context_for_ai s cid
      = d.archive.drop (d.archive.length - 8) ++ d.tactical ∧
    (get_context_for_ai s cid).length
      = min d.archive.length 8 + d.tactical.length := by
  have hmain : get_context_for_ai s cid
      = d.archive.drop (d.archive.length - 8) ++ d.tactical := by
    unfold get_context_for_ai
    simp only [h1, h2]
    by_cases h : d.archive.length ≥ 8
    · simp [h]
    · have h0 : d.archive.length - 8 = 0 := by omega
      simp [h, h0]
  refine ⟨hmain, ?_⟩
  rw [hmain]
  simp only [List.length_append, List.length_drop]
  omega

theorem c5_context_assembly_witness :
    lookupKey "c" wStoreA.conversations = some wMeta ∧
    lookupKey "c" wStoreA.dirs = some wDirA ∧
    (get_context_for_ai wStoreA "c"
        = wDirA.archive.drop (wDirA.archive.length - 8) ++ wDirA.tactical ∧
      (get_context_for_ai wStoreA "c").length
        = min wDirA.archive.length 8 + wDirA.tactical.length) :=
  ⟨by decide, by decide,
    c5_context_assembly wStoreA "c" wMeta wDirA (by decide) (by decide)⟩

/-- C6: context assembly is a pure function of the conversation's stored
state: whenever two stores agree on whether the conversation exists and
on its directory (which is exactly what holds across two calls with no
intervening append or compaction), `get_context_for_ai` returns the same
ordered sequence — in particular two consecutive calls on an unchanged
store are identical. -/
theorem c6_build_pure (s₁ s₂ : Store) (cid : String)
    (hconv : (lookupKey cid s₁.conversations).isSome
      = (lookupKey cid s₂.conversations).isSome)
    (hdirs : lookupKey cid s₁.dirs = lookupKey cid s₂.dirs) :
    get_context_for_ai s₁ cid = get_context_for_ai s₂ cid := by
  unfold get_context_for_ai
  cases hc1 : lookupKey cid s₁.conversations with
  | none =>
    cases hc2 : lookupKey cid s₂.conversations with
    | none => rfl
    | some m2 =>
      rw [hc1, hc2] at hconv
      simp at hconv
  | some m1 =>
    cases hc2 : lookupKey cid s₂.conversations with
    | none =>
      rw [hc1, hc2] at hconv
      simp at hconv
    | some m2 =>
      rw [hdirs]

theorem c6_build_pure_witness :
    ((lookupKey "c" wStore.conversations).isSome
      = (lookupKey "c" wStoreG.conversations).isSome) ∧
    (lookupKey "c" wStore.dirs = lookupKey "c" wStoreG.dirs) ∧
    get_context_for_ai wStore "c" = get_context_for_ai wStoreG "c" :=
  ⟨by decide, by decide, c6_build_pure wStore wStoreG "c" (by decide) (by decide)⟩

/-- C7: compaction is best-effort.  A relay error (including any
exception raised inside the Compactor body, which its catch-all handler
absorbs) makes `compress` return `False` with the store untouched; a
provider reply whose extracted text is empty after stripping is likewise
absorbed as `False` with no mutation; and every append against an
existing conversation returns `True` with the message appended to the
raw tier and present at the end of the active tier, whatever the relay
outcome was. -/
theorem c7_compaction_best_effort :
    (∀ (s : Store) (cfgs : List (String × AIConfig)) (now : Nat) (cid : String)
        (tc : List Entry),
        compress s cfgs RelayOutcome.error now cid tc = (false, s)) ∧
    (∀ (s : Store) (cfgs : List (String × AIConfig)) (now : Nat) (cid : String)
        (tc : List Entry) (resp : AIResponse),
        pyStrip ((extract_openai_response resp).message.getD "") = "" →
        compress s cfgs (RelayOutcome.reply resp) now cid tc = (false, s)) ∧
    (∀ (s : Store) (cfgs : List (String × AIConfig)) (relay : RelayOutcome)
        (now : Nat) (cid role content : String) (tcs : Option (List ToolCall))
        (fr : Option String) (tt : Nat) (m : Meta) (d : ConvData),
        lookupKey cid s.conversations = some m →
        lookupKey cid s.dirs = some d →
        (add_message s cfgs relay now cid role content tcs fr tt).1 = true ∧
        rawOf ((add_message s cfgs relay now cid role content tcs fr tt).2) cid
          = rawOf s cid ++ [mkMessage now role content tcs fr tt] ∧
        ∃ t, tacticalOf
            ((add_message s cfgs relay now cid role content tcs fr tt).2) cid
          = t ++ [mkMessage now role content tcs fr tt]) := by
  refine ⟨compress_error_result, compress_empty_reply, ?_⟩
  intro s cfgs relay now cid role content tcs fr tt m d h1 h2
  obtain ⟨ha, -, hraw, htac⟩ :=
    add_message_appends s cfgs relay now cid role content tcs fr tt m d h1 h2
  exact ⟨ha, hraw, htac⟩

theorem c7_compaction_best_effort_witness :
    compress wStore [] RelayOutcome.error 0 "c" [] = (false, wStore) ∧
    (pyStrip ((extract_openai_response ⟨[], none⟩).message.getD "") = "" ∧
      compress wStore [] (RelayOutcome.reply ⟨[], none⟩) 0 "c" []
        = (false, wStore)) ∧
    (lookupKey "c" wStore.conversations = some wMeta ∧
      lookupKey "c" wStore.dirs = some wDir ∧
      (add_message wStore [] RelayOutcome.error 7 "c" "user" "hi" none none 0).1
        = true ∧
      rawOf ((add_message wStore [] RelayOutcome.error 7 "c" "user" "hi" none
          none 0).2) "c"
        = rawOf wStore "c" ++ [mkMessage 7 "user" "hi" none none 0]) :=
  ⟨c7_compaction_best_effort.1 wStore [] 0 "c" [],
    ⟨by decide,
      c7_compaction_best_effort.2.1 wStore [] 0 "c" [] ⟨[], none⟩ (by decide)⟩,
    ⟨by decide, by decide,
      (c7_compaction_best_effort.2.2 wStore [] RelayOutcome.error 7 "c" "user"
        "hi" none none 0 wMeta wDir (by decide) (by decide)).1,
      (c7_compaction_best_effort.2.2 wStore [] RelayOutcome.error 7 "c" "user"
        "hi" none none 0 wMeta wDir (by decide) (by decide)).2.1⟩⟩

/-- C8: every successful append adds the message to the raw tier and to
the end of the active tier and bumps `message_count` by one;
`update_after_compression` touches neither the metadata (hence
`message_count`) nor any raw tier; therefore on every reachable store the
raw tier's length equals `message_count`, and every store transition only
ever extends a raw tier (it never shrinks or reorders). -/
theorem c8_raw_append_only :
    (∀ (s : Store) (cfgs : List (String × AIConfig)) (relay : RelayOutcome)
        (now : Nat) (cid role content : String) (tcs : Option (List ToolCall))
        (fr : Option String) (tt : Nat) (m : Meta) (d : ConvData),
        lookupKey cid s.conversations = some m →
        lookupKey cid s.dirs = some d →
        (add_message s cfgs relay now cid role content tcs fr tt).1 = true ∧
        rawOf ((add_message s cfgs relay now cid role content tcs fr tt).2) cid
          = rawOf s cid ++ [mkMessage now role content tcs fr tt] ∧
        (lookupKey cid ((add_message s cfgs relay now cid role content tcs fr
            tt).2).conversations).map Meta.message_count
          = some (m.message_count + 1) ∧
        ∃ t, tacticalOf
            ((add_message s cfgs relay now cid role content tcs fr tt).2) cid
          = t ++ [mkMessage now role content tcs fr tt]) ∧
    (∀ (s : Store) (now : Nat) (cid summ : String) (keep : Nat) (cid' : String),
        lookupKey cid'
            ((update_after_compression s now cid summ keep).2).conversations
          = lookupKey cid' s.conversations ∧
        rawOf ((update_after_compression s now cid summ keep).2) cid'
          = rawOf s cid') ∧
    (∀ s : Store, Reachable s → ∀ cid m d,
        lookupKey cid s.conversations = some m →
        lookupKey cid s.dirs = some d →
        d.raw_context.length = m.message_count) ∧
    (∀ s s' : Store, Reachable s → Step s s' → ∀ cid,
        ∃ t, rawOf s' cid = rawOf s cid ++ t) := by
  refine ⟨?_, ?_, ?_, ?_⟩
  · intro s cfgs relay now cid role content tcs fr tt m d h1 h2
    obtain ⟨ha, hmc, hraw, htac⟩ :=
      add_message_appends s cfgs relay now cid role content tcs fr tt m d h1 h2
    exact ⟨ha, hraw, hmc, htac⟩
  · intro s now cid summ keep cid'
    constructor
    · rw [uac_conversations]
    · unfold rawOf
      rw [uac_raw]
  · intro s hs cid m d hm hd
    exact (((reachable_inv hs cid).2 m hm).2 d hd).symm
  · intro s s' hs hstep cid
    exact step_raw_extends hs hstep cid

theorem c8_raw_append_only_witness :
    (lookupKey "c" wStore.conversations = some wMeta ∧
      lookupKey "c" wStore.dirs = some wDir ∧
      (add_message wStore [] RelayOutcome.error 7 "c" "user" "hi" none none 0).1
        = true ∧
      rawOf ((add_message wStore [] RelayOutcome.error 7 "c" "user" "hi" none
          none 0).2) "c"
        = rawOf wStore "c" ++ [mkMessage 7 "user" "hi" none none 0] ∧
      (lookupKey "c" ((add_message wStore [] RelayOutcome.error 7 "c" "user"
          "hi" none none 0).2).conversations).map Meta.message_count
        = some (wMeta.message_count + 1)) ∧
    (lookupKey "c"
        ((update_after_compression wStore 99 "c" "X" 5).2).conversations
      = lookupKey "c" wStore.conversations ∧
      rawOf ((update_after_compression wStore 99 "c" "X" 5).2) "c"
        = rawOf wStore "c") ∧
    (Reachable freshStore ∧
      lookupKey "c" freshStore.conversations = some freshMeta ∧
      lookupKey "c" freshStore.dirs = some ⟨[], [], []⟩ ∧
      (⟨[], [], []⟩ : ConvData).raw_context.length = freshMeta.message_count) :=
  have hr : Reachable freshStore :=
    Reachable.step Reachable.init
      (Step.create ⟨[], []⟩ 0 "c" "chat" "common" "a1" "dev" rfl)
  ⟨⟨by decide, by decide,
      (c8_raw_append_only.1 wStore [] RelayOutcome.error 7 "c" "user" "hi" none
        none 0 wMeta wDir (by decide) (by decide)).1,
      (c8_raw_append_only.1 wStore [] RelayOutcome.error 7 "c" "user" "hi" none
        none 0 wMeta wDir (by decide) (by decide)).2.1,
      (c8_raw_append_only.1 wStore [] RelayOutcome.error 7 "c" "user" "hi" none
        none 0 wMeta wDir (by decide) (by decide)).2.2.1⟩,
    c8_raw_append_only.2.1 wStore 99 "c" "X" 5 "c",
    ⟨hr, by decide, by decide,
      c8_raw_append_only.2.2.1 freshStore hr "c" freshMeta ⟨[], [], []⟩
        (by decide) (by decide)⟩⟩

/-- C9, counterexample to the claim as stated: the conversation `"c"` of
`freshStore` exists with all three tiers empty, yet
`get_conversation_context` returns a metadata-bearing value for it while
returning the empty mapping for the absent id `"missing"` — so at that
interface a nonexistent conversation *is* distinguishable from an
existing conversation with empty tiers (the two list-returning
interfaces do coincide). -/
theorem c9_counterexample :
    tacticalOf freshStore "c" = [] ∧
    archiveOf freshStore "c" = [] ∧
    rawOf freshStore "c" = [] ∧
    get_conversation_context freshStore "c" ≠ none ∧
    get_conversation_context freshStore "missing" = none ∧
    get_context_for_ai freshStore "c" = get_context_for_ai freshStore "missing" ∧
    get_tactical_content freshStore "c"
      = get_tactical_content freshStore "missing" := by
  refine ⟨by decide, by decide, by decide, by decide, by decide, by decide,
    by decide⟩

/-- C9, amended: for every conversation id absent from the metadata map,
`get_context_for_ai` returns `[]`, `get_conversation_context` returns the
empty mapping, and `get_tactical_content` returns `[]`; hence at
`get_context_for_ai` and `get_tactical_content` a nonexistent
conversation is indistinguishable from an existing conversation with
empty tiers (while `get_conversation_context` still reveals existence
through the metadata entry). -/
theorem c9_absent_reads_empty :
    (∀ (s : Store) (cid : String),
        lookupKey cid s.conversations = none →
        get_context_for_ai s cid = [] ∧
        get_conversation_context s cid = none ∧
        get_tactical_content s cid = []) ∧
    (∀ (s : Store) (cid : String) (m : Meta) (d : ConvData),
        lookupKey cid s.conversations = some m →
        lookupKey cid s.dirs = some d →
        d.tactical = [] → d.archive = [] →
        get_context_for_ai s cid = [] ∧ get_tactical_content s cid = []) := by
  constructor
  · intro s cid h
    refine ⟨?_, ?_, ?_⟩
    · unfold get_context_for_ai
      simp [h]
    · unfold get_conversation_context
      simp [h]
    · unfold get_tactical_content
      simp [h]
  · intro s cid m d h1 h2 ht ha
    constructor
    · unfold get_context_for_ai
      simp [h1, h2, ht, ha]
    · unfold get_tactical_content
      simp [h1, h2, ht]

theorem c9_absent_reads_empty_witness :
    (lookupKey "missing" freshStore.conversations = none ∧
      (get_context_for_ai freshStore "missing" = [] ∧
        get_conversation_context freshStore "missing" = none ∧
        get_tactical_content freshStore "missing" = [])) ∧
    (lookupKey "c" freshStore.conversations = some freshMeta ∧
      lookupKey "c" freshStore.dirs = some ⟨[], [], []⟩ ∧
      (get_context_for_ai freshStore "c" = [] ∧
        get_tactical_content freshStore "c" = [])) :=
  ⟨⟨by decide, c9_absent_reads_empty.1 freshStore "missing" (by decide)⟩,
    ⟨by decide, by decide,
      c9_absent_reads_empty.2 freshStore "c" freshMeta ⟨[], [], []⟩ (by decide)
        (by decide) rfl rfl⟩⟩

/-- C10: `extract_ai_response` returns the empty record for every
provider outside `{"openai", "deepseek", "ollama", "siliconflow"}`
(including `"gemini"`), and consequently a compaction attempt whose
conversation references such a provider extracts an empty summary and
returns `False` without mutating the store, for every provider
response. -/
theorem c10_unknown_provider_skipped :
    (∀ (resp : AIResponse) (p : String),
        ¬(p = "openai" ∨ p = "deepseek" ∨ p = "ollama" ∨ p = "siliconflow") →
        extract_ai_response resp p = Extracted.empty) ∧
    (∀ (s : Store) (cfgs : List (String × AIConfig)) (now : Nat) (cid : String)
        (tc : List Entry) (resp : AIResponse) (m : Meta) (c : AIConfig),
        lookupKey cid s.conversations = some m →
        lookupKey m.ai cfgs = some c →
        ¬(c.provider = "openai" ∨ c.provider = "deepseek" ∨
          c.provider = "ollama" ∨ c.provider = "siliconflow") →
        compress s cfgs (RelayOutcome.reply resp) now cid tc = (false, s)) := by
  constructor
  · intro resp p hp
    unfold extract_ai_response
    rw [if_neg hp]
  · intro s cfgs now cid tc resp m c h1 h3 hp
    exact compress_unknown_provider s cfgs now cid tc resp m c h1 h3 hp

theorem c10_unknown_provider_skipped_witness :
    (¬("gemini" = "openai" ∨ "gemini" = "deepseek" ∨ "gemini" = "ollama" ∨
        "gemini" = "siliconflow") ∧
      extract_ai_response wReply "gemini" = Extracted.empty) ∧
    (lookupKey "c" wStoreG.conversations = some wMetaG ∧
      lookupKey wMetaG.ai wCfgG = some { provider := "gemini" } ∧
      compress wStoreG wCfgG (RelayOutcome.reply wReply) 0 "c" wDir.tactical
        = (false, wStoreG)) :=
  ⟨⟨by decide, c10_unknown_provider_skipped.1 wReply "gemini" (by decide)⟩,
    ⟨by decide, by decide,
      c10_unknown_provider_skipped.2 wStoreG wCfgG 0 "c" wDir.tactical wReply
        wMetaG { provider := "gemini" } (by decide) (by decide) (by decide)⟩⟩

end Chrry
